import Mathlib

/-!
Verification of the proxy-pool / scheduler core of the frontier-cursor repository.

Shallow embedding of `src/backend/services/decodoProxyManager.js` (classes
`ProxyUsage` and `DecodoProxyManager`), of the per-job retry loop
`scrapeFlightsWithDecodo` in `src/backend/services/scraper.js`, and of the
bounded-concurrency scheduler `processRoutesConcurrently` plus the batch
statistics of the bulk scraper service.

Modelling conventions:
* JS timestamps (`Date.now()`) are `Int` milliseconds, passed explicitly as a
  `now` argument to every operation that reads the clock.  All clock reads
  inside one call are modelled as the same instant.
* JS arrays are `List`, in-place mutation is explicit state passing.
* `saveState()` (writing the rotation cursor to disk) is made observable by
  returning the list of cursor values persisted during a call.
* `null` is `Option.none`; the JS truthiness test `this.cooldownUntil && ...`
  is modelled as a `match` on the `Option` (the degenerate JS case of a falsy
  timestamp `0` is not distinguished).
-/

/-- State of one proxy endpoint: class `ProxyUsage` of
`decodoProxyManager.js` (full version, lines 205-393). -/
structure ProxyUsage where
  proxyId : String
  host : String
  port : Nat
  username : Option String := none
  password : Option String := none
  lastUsed : Option Int := none
  useCount : Nat := 0
  recentUses : List Int := []
  totalRequests : Nat := 0
  failedRequests : Nat := 0
  disabled : Bool := false
  blacklisted : Bool := false
  cooldownUntil : Option Int := none
  cooldownLevel : Nat := 0
  perimeterXBlocks : List Int := []
  deriving Repr, DecidableEq

instance : Inhabited ProxyUsage :=
  ⟨{ proxyId := "", host := "", port := 0 }⟩

/-- The JS test `this.cooldownUntil && now < this.cooldownUntil`. -/
def ProxyUsage.cooldownActive (p : ProxyUsage) (now : Int) : Bool :=
  match p.cooldownUntil with
  | some t => decide (now < t)
  | none => false

/-- Number of recorded use timestamps inside the trailing 60 s window. -/
def windowCount (now : Int) (l : List Int) : Nat :=
  (l.filter fun t => decide (now - 60000 < t)).length

/-- Method `ProxyUsage.canUse` (lines 243-259): blacklist check, cooldown
check, then pruning of `recentUses` to the trailing minute and the rate
check.  Returns the decision together with the mutated proxy (the pruning
is an in-place mutation in the source). -/
def ProxyUsage.canUse (p : ProxyUsage) (now : Int) (maxUsesPerMinute : Nat) :
    Bool × ProxyUsage :=
  if p.blacklisted then (false, p)
  else if p.cooldownActive now then (false, p)
  else
    let p' := { p with recentUses := p.recentUses.filter fun t => decide (now - 60000 < t) }
    (decide (p'.recentUses.length < maxUsesPerMinute), p')

/-- Method `ProxyUsage.markUsed` (lines 377-383). -/
def ProxyUsage.markUsed (p : ProxyUsage) (now : Int) : ProxyUsage :=
  { p with
    lastUsed := some now
    recentUses := p.recentUses ++ [now]
    useCount := p.useCount + 1
    totalRequests := p.totalRequests + 1 }

/-- Method `ProxyUsage.markFailed` (lines 385-387). -/
def ProxyUsage.markFailed (p : ProxyUsage) : ProxyUsage :=
  { p with failedRequests := p.failedRequests + 1 }

/-- Method `ProxyUsage.recordPerimeterXBlock` (lines 264-305): push the block
timestamp, prune entries older than 20 minutes, then escalate on the pruned
count. -/
def ProxyUsage.recordPerimeterXBlock (p : ProxyUsage) (now : Int) : ProxyUsage :=
  let blocks := (p.perimeterXBlocks ++ [now]).filter fun t => decide (now - 1200000 < t)
  let q := { p with perimeterXBlocks := blocks }
  if blocks.length = 1 then
    { q with cooldownLevel := 0, cooldownUntil := none }
  else if blocks.length = 2 then
    { q with cooldownLevel := 1, cooldownUntil := some (now + 1200000) }
  else if blocks.length = 3 then
    { q with cooldownLevel := 2, cooldownUntil := some (now + 7200000) }
  else if blocks.length = 4 then
    { q with cooldownLevel := 3, cooldownUntil := some (now + 86400000) }
  else if 5 ≤ blocks.length then
    { q with cooldownLevel := 4, blacklisted := true, cooldownUntil := none }
  else q

/-- Method `ProxyUsage.recordSuccess` (lines 310-326): reset the PerimeterX
history unless blacklisted (`cooldownLevel = 4`), then mark the proxy used. -/
def ProxyUsage.recordSuccess (p : ProxyUsage) (now : Int) : ProxyUsage :=
  let p1 :=
    if (0 < p.perimeterXBlocks.length ∨ 0 < p.cooldownLevel) ∧ p.cooldownLevel < 4 then
      { p with perimeterXBlocks := [], cooldownLevel := 0, cooldownUntil := none }
    else p
  p1.markUsed now

/-- Pool state: class `DecodoProxyManager` (lines 395-885).  `activeWorkers`
and `maxWorkers` are JS numbers, modelled as `Int` so that the clamping of
the release decrement is meaningful. -/
structure DecodoProxyManager where
  maxUsesPerMinute : Nat
  maxWorkers : Int
  proxies : List ProxyUsage
  currentIndex : Nat
  activeWorkers : Int
  deriving Repr, DecidableEq

/-- Result of one `getNextProxy` call: the granted proxy (its pool index and
id; the source returns a config object built from these), the new pool state,
and the cursor values written by `saveState()` during the call. -/
structure AcquireResult where
  granted : Option (Nat × String)
  state : DecodoProxyManager
  persisted : List Nat
  deriving Repr, DecidableEq

/-- Intermediate state of the candidate scan inside `getNextProxy`. -/
structure ScanResult where
  granted : Option (Nat × String)
  proxies : List ProxyUsage
  idx : Nat
  persisted : List Nat
  deriving Repr, DecidableEq

/-- The candidate scan of `getNextProxy` (lines 471-515), with the remaining
number of attempts as fuel (`attempts < this.proxies.length`).  Each step
takes the proxy at the cursor, advances and persists the cursor, then either
skips (disabled / blacklisted / cooling down), rejects via `canUse` (whose
pruning mutation is written back), or grants. -/
def scanLoop (m : Nat) (now : Int) :
    Nat → List ProxyUsage → Nat → List Nat → ScanResult
  | 0, ps, idx, log => ⟨none, ps, idx, log⟩
  | fuel + 1, ps, idx, log =>
    let p := ps.getD idx default
    let idx' := (idx + 1) % ps.length
    let log' := log ++ [idx']
    if p.disabled then scanLoop m now fuel ps idx' log'
    else if p.blacklisted then scanLoop m now fuel ps idx' log'
    else if p.cooldownActive now then scanLoop m now fuel ps idx' log'
    else
      let c := p.canUse now m
      if c.1 then
        ⟨some (idx, p.proxyId), ps.set idx (c.2.markUsed now), idx', log'⟩
      else scanLoop m now fuel (ps.set idx c.2) idx' log'

/-- Method `DecodoProxyManager.getNextProxy` (lines 466-518). -/
def DecodoProxyManager.getNextProxy (mgr : DecodoProxyManager) (now : Int) : AcquireResult :=
  if mgr.maxWorkers ≤ mgr.activeWorkers then ⟨none, mgr, []⟩
  else
    let r := scanLoop mgr.maxUsesPerMinute now mgr.proxies.length mgr.proxies mgr.currentIndex []
    match r.granted with
    | some g =>
      ⟨some g,
        { mgr with
          proxies := r.proxies
          currentIndex := r.idx
          activeWorkers := mgr.activeWorkers + 1 },
        r.persisted⟩
    | none =>
      ⟨none,
        { mgr with proxies := r.proxies, currentIndex := r.idx },
        r.persisted⟩

/-- Replace the first list entry whose `proxyId` matches (the in-place
mutation of the object returned by `this.proxies.find(...)`). -/
def updateFirst (f : ProxyUsage → ProxyUsage) (pid : String) :
    List ProxyUsage → List ProxyUsage
  | [] => []
  | p :: ps => if p.proxyId = pid then f p :: ps else p :: updateFirst f pid ps

/-- Method `DecodoProxyManager.releaseProxy` (lines 520-539): clamped
decrement of `activeWorkers`, then outcome handling on the first proxy whose
id matches (no-op on the proxies when none matches). -/
def DecodoProxyManager.releaseProxy (mgr : DecodoProxyManager) (pid : String)
    (success : Bool) (perimeterXBlock : Bool) (now : Int) : DecodoProxyManager :=
  let aw := if 0 < mgr.activeWorkers then mgr.activeWorkers - 1 else mgr.activeWorkers
  let f : ProxyUsage → ProxyUsage := fun p =>
    if perimeterXBlock then (p.recordPerimeterXBlock now).markFailed
    else if success then p.recordSuccess now
    else p.markFailed
  { mgr with activeWorkers := aw, proxies := updateFirst f pid mgr.proxies }

/-- One pool operation: an acquire (`getNextProxy`) or a release
(`releaseProxy`), each carrying the instant at which it runs. -/
inductive PoolOp where
  | acquire (now : Int)
  | release (pid : String) (success : Bool) (pxBlock : Bool) (now : Int)
  deriving Repr, DecidableEq

/-- The instant at which an operation runs. -/
def PoolOp.time : PoolOp → Int
  | .acquire now => now
  | .release _ _ _ now => now

/-- Apply one operation to the pool. -/
def applyOp (mgr : DecodoProxyManager) : PoolOp → DecodoProxyManager
  | .acquire now => (mgr.getNextProxy now).state
  | .release pid s b now => mgr.releaseProxy pid s b now

/-- Apply a sequence of operations to the pool. -/
def applyOps (mgr : DecodoProxyManager) (ops : List PoolOp) : DecodoProxyManager :=
  ops.foldl applyOp mgr

/-- Operation times are nondecreasing, starting no earlier than `t`. -/
def timesSortedFrom (t : Int) : List PoolOp → Bool
  | [] => true
  | op :: rest => decide (t ≤ op.time) && timesSortedFrom op.time rest

/-- The instant of the last operation (or `t` for the empty sequence). -/
def lastTime (t : Int) : List PoolOp → Int
  | [] => t
  | op :: rest => lastTime op.time rest

/-- No operation in the list is a success release (`success = true`,
`perimeterXBlock = false`, the branch that calls `recordSuccess`). -/
def noSuccessRelease (ops : List PoolOp) : Bool :=
  ops.all fun op =>
    match op with
    | .acquire _ => true
    | .release _ s b _ => b || !s

/-!
Bounded-concurrency scheduler `processRoutesConcurrently` and the batch
statistics of the bulk scraper service (`src/unnamed/part_006`, full
version: lines 239-330 and 379-497).

The JS runtime is single-threaded and cooperative: pool/stats mutations
between two suspension points are atomic.  The scheduler is embedded as a
state machine whose events are the macro/microtask boundaries:
* a staggered `setTimeout` callback of the initial wave fires (the route
  starts executing and joins `inProgress` only at that point);
* an in-flight route settles and the main loop's `Promise.race`
  continuation refills free slots in the same microtask chain;
* a route settles while the main loop is awaiting a stale snapshot (its
  `finally` removes it from `inProgress` but no refill runs yet);
* the main loop wakes and refills without a new completion.
-/

/-- Batch counters of `scrapeRoutesByOrigin` / `scrapeAllRoutes`. -/
structure BatchStats where
  total : Nat
  cached : Nat
  scraped : Nat
  failed : Nat
  processed : Nat
  deriving Repr, DecidableEq

/-- Terminal outcome of one `processRoute` call: cache hit, successful live
scrape, unsuccessful live scrape, or caught error.  `processRoute` catches
every error internally, so a job promise always fulfills. -/
inductive JobOutcome where
  | cachedHit
  | scrapedOk
  | scrapeFail
  | errorCaught
  deriving Repr, DecidableEq

/-- Counter update performed by `processRoute` at the job's terminal
transition (lines 405-496). -/
def BatchStats.applyOutcome (st : BatchStats) : JobOutcome → BatchStats
  | .cachedHit => { st with cached := st.cached + 1, processed := st.processed + 1 }
  | .scrapedOk => { st with scraped := st.scraped + 1, processed := st.processed + 1 }
  | .scrapeFail => { st with failed := st.failed + 1, processed := st.processed + 1 }
  | .errorCaught => { st with failed := st.failed + 1, processed := st.processed + 1 }

/-- Scheduler state of `processRoutesConcurrently`:
`pending` counts initial-wave routes whose staggered `setTimeout` has not
fired yet, `inFlight` is `inProgress.size`, `queued` is
`routes.length - currentIndex`, `done` counts settled routes. -/
structure SchedState where
  limit : Nat
  pending : Nat
  inFlight : Nat
  queued : Nat
  done : Nat
  stats : BatchStats
  deriving Repr, DecidableEq

/-- State after the synchronous part of `processRoutesConcurrently`
(lines 271-294): the initial batch of `min(C, N)` routes is scheduled, the
first one (delay 0) has already started, the others are pending on timers. -/
def initSched (n c : Nat) : SchedState :=
  { limit := c
    pending := min c n - 1
    inFlight := min 1 n
    queued := n - min c n
    done := 0
    stats := ⟨n, 0, 0, 0, 0⟩ }

/-- Scheduler events (see the module comment above). -/
inductive SchedStep where
  | fire
  | complete (o : JobOutcome)
  | completeNoRefill (o : JobOutcome)
  | refill
  deriving Repr, DecidableEq

/-- Number of routes the refill loop (lines 315-321) starts:
`while (inProgress.size < maxConcurrent && currentIndex < routes.length)`. -/
def refillCount (s : SchedState) : Nat :=
  if s.inFlight < s.limit then min (s.limit - s.inFlight) s.queued else 0

/-- Apply one scheduler event.  Events whose enabling condition fails
(firing with nothing pending, completing with nothing in flight) are
no-ops. -/
def applyStep (s : SchedState) : SchedStep → SchedState
  | .fire =>
    if 0 < s.pending then
      { s with pending := s.pending - 1, inFlight := s.inFlight + 1 }
    else s
  | .complete o =>
    if 0 < s.inFlight then
      let s1 := { s with
        inFlight := s.inFlight - 1
        done := s.done + 1
        stats := s.stats.applyOutcome o }
      let k := refillCount s1
      { s1 with inFlight := s1.inFlight + k, queued := s1.queued - k }
    else s
  | .completeNoRefill o =>
    if 0 < s.inFlight then
      { s with
        inFlight := s.inFlight - 1
        done := s.done + 1
        stats := s.stats.applyOutcome o }
    else s
  | .refill =>
    let k := refillCount s
    { s with inFlight := s.inFlight + k, queued := s.queued - k }

/-- Run the scheduler over a sequence of events. -/
def runSched (s : SchedState) (steps : List SchedStep) : SchedState :=
  steps.foldl applyStep s

/-- Exit condition of the main loop (line 308):
`while (currentIndex < routes.length || inProgress.size > 0)`.  When it
fails the function runs `Promise.all` over the (then empty) `inProgress`
set and resolves. -/
def SchedState.resolvable (s : SchedState) : Bool :=
  decide (s.queued = 0) && decide (s.inFlight = 0)

/-!
Per-job retry loop `scrapeFlightsWithDecodo`
(`src/backend/services/scraper.js`, lines 346-451).

Environment inputs are explicit schedules: for every loop iteration the
value of `Date.now()` at the iteration top, the outcome of the scrape
attempt (if a proxy is granted), and the `Date.now()` values of the
`waitForAvailableProxy` polls (if none is granted).  All clock reads of one
iteration are modelled as the iteration-top instant.
-/

/-- Default of `SCRAPER_MAX_RETRIES` (scraper.js line 16). -/
def MAX_RETRIES : Nat := 3

/-- Hardcoded `const totalProxies = 10` (scraper.js line 357) — a constant,
not the pool's actual size. -/
def totalProxies : Nat := 10

/-- `const maxWaitTime = 120000` (scraper.js line 358). -/
def maxWaitTime : Int := 120000

/-- Outcome of one `scrapeFlightsPlaywright` call as classified by the
retry loop: success, the distinguished `BLOCKED_BY_PERIMETERX` rejection,
or any other error. -/
inductive ScrapeOutcome where
  | success
  | pxBlock
  | other
  deriving Repr, DecidableEq

/-- JS `Set.add`: append the id unless already present. -/
def addTried (tried : List String) (pid : String) : List String :=
  if pid ∈ tried then tried else tried ++ [pid]

/-- Method `DecodoProxyManager.waitForAvailableProxy` (lines 541-549):
poll `getNextProxy` until a grant or until the timeout; `pollTimes` are the
`Date.now()` readings at the loop condition.  Pool mutations of failed
polls (cursor movement, pruning) are kept. -/
def waitForAvailableProxy (mgr : DecodoProxyManager) (startT timeoutMs : Int) :
    List Int → Option (Nat × String) × DecodoProxyManager
  | [] => (none, mgr)
  | t :: ts =>
    if t - startT < timeoutMs then
      let r := mgr.getNextProxy t
      match r.granted with
      | some g => (some g, r.state)
      | none => waitForAvailableProxy r.state startT timeoutMs ts
    else (none, mgr)

/-- Mutable state of the `scrapeFlightsWithDecodo` loop. -/
structure DecodoState where
  mgr : DecodoProxyManager
  attempt : Nat
  lastError : Option ScrapeOutcome
  tried : List String
  deriving Repr, DecidableEq

/-- Environment schedule for one loop iteration. -/
structure IterSchedule where
  t : Int
  outcome : ScrapeOutcome
  pollTimes : List Int
  deriving Repr, DecidableEq

/-- Record of one executed loop iteration (model bookkeeping used to state
properties; the source only logs this information). -/
structure IterRecord where
  time : Int
  attemptNo : Nat
  lastErrorWasPx : Bool
  triedBefore : Nat
  granted : Option String
  deriving Repr, DecidableEq

/-- Return value of `scrapeFlightsWithDecodo` together with the iteration
trace. -/
structure DecodoRunResult where
  success : Bool
  attempts : Nat
  proxiesTried : Nat
  iters : List IterRecord
  finalState : DecodoState
  deriving Repr, DecidableEq

/-- The retry loop of `scrapeFlightsWithDecodo` (lines 362-443).  The loop
condition admits an iteration while `attempt < MAX_RETRIES` or while the
last error was a PerimeterX block and fewer than `totalProxies` distinct
proxies are in the tried set; an iteration is abandoned once more than
`maxWaitTime` has elapsed.  On a grant the proxy id enters the tried set;
success releases and returns, a PerimeterX block releases with escalation
and continues, any other error releases as a plain failure and continues
only under `MAX_RETRIES`.  When no proxy is granted the loop waits; both
no-proxy branches after a failed wait break. -/
def scrapeFlightsWithDecodo (startTime : Int) :
    List IterSchedule → DecodoState → DecodoRunResult
  | [], st => ⟨false, st.attempt, st.tried.length, [], st⟩
  | it :: rest, st =>
    if ¬ (st.attempt < MAX_RETRIES ∨
          (st.lastError = some .pxBlock ∧ st.tried.length < totalProxies)) then
      ⟨false, st.attempt, st.tried.length, [], st⟩
    else if maxWaitTime < it.t - startTime then
      ⟨false, st.attempt, st.tried.length, [], st⟩
    else
      let rec0 : IterRecord :=
        ⟨it.t, st.attempt + 1, decide (st.lastError = some ScrapeOutcome.pxBlock),
          st.tried.length, none⟩
      let st1 := { st with attempt := st.attempt + 1 }
      let r := st1.mgr.getNextProxy it.t
      match r.granted with
      | none =>
        let w := waitForAvailableProxy r.state it.t 30000 it.pollTimes
        match w.1 with
        | none =>
          ⟨false, st1.attempt, st1.tried.length, [rec0], { st1 with mgr := w.2 }⟩
        | some _ =>
          let res := scrapeFlightsWithDecodo startTime rest { st1 with mgr := w.2 }
          { res with iters := rec0 :: res.iters }
      | some (_, pid) =>
        let st2 := { st1 with mgr := r.state, tried := addTried st1.tried pid }
        let recG := { rec0 with granted := some pid }
        match it.outcome with
        | .success =>
          let mgr2 := st2.mgr.releaseProxy pid true false it.t
          ⟨true, st2.attempt, st2.tried.length, [recG], { st2 with mgr := mgr2 }⟩
        | .pxBlock =>
          let mgr2 := st2.mgr.releaseProxy pid false true it.t
          let st3 := { st2 with mgr := mgr2, lastError := some ScrapeOutcome.pxBlock }
          let res := scrapeFlightsWithDecodo startTime rest st3
          { res with iters := recG :: res.iters }
        | .other =>
          let mgr2 := st2.mgr.releaseProxy pid false false it.t
          let st3 := { st2 with mgr := mgr2, lastError := some ScrapeOutcome.other }
          if MAX_RETRIES ≤ st3.attempt then
            ⟨false, st3.attempt, st3.tried.length, [recG], st3⟩
          else
            let res := scrapeFlightsWithDecodo startTime rest st3
            { res with iters := recG :: res.iters }

/-! Specification-level definitions and concrete fixtures used by the
theorems below. -/

/-- Fixture: a one-proxy pool holding one worker. -/
def mgrW9 : DecodoProxyManager :=
  { maxUsesPerMinute := 2, maxWorkers := 2, activeWorkers := 1, currentIndex := 0,
    proxies := [{ proxyId := "decodo-1", host := "dc.decodo.com", port := 10001 }] }
/-- Fixture: a pool of three disabled proxies with a free worker slot. -/
def mgrW10 : DecodoProxyManager :=
  { maxUsesPerMinute := 2, maxWorkers := 1, activeWorkers := 0, currentIndex := 0,
    proxies :=
      [{ proxyId := "decodo-1", host := "dc.decodo.com", port := 10001, disabled := true },
       { proxyId := "decodo-2", host := "dc.decodo.com", port := 10002, disabled := true },
       { proxyId := "decodo-3", host := "dc.decodo.com", port := 10003, disabled := true }] }
/-- Scan-relevant view of a proxy: the fields read by the skip checks and
the rate check, with the use list abstracted to its in-window count. -/
def viewEq (now : Int) (a b : ProxyUsage) : Prop :=
  b.disabled = a.disabled ∧ b.blacklisted = a.blacklisted ∧
    b.cooldownUntil = a.cooldownUntil ∧ b.proxyId = a.proxyId ∧
    windowCount now b.recentUses = windowCount now a.recentUses
/-- Positionwise scan view correspondence between the pool list at call
time and the list mutated during the scan. -/
def sameView (now : Int) (ps0 ps : List ProxyUsage) : Prop :=
  ps.length = ps0.length ∧
    ∀ j (hj : j < ps0.length) (hj2 : j < ps.length),
      viewEq now (ps0.get ⟨j, hj⟩) (ps.get ⟨j, hj2⟩)
/-- Pointwise blacklist monotonicity between two proxy lists. -/
def blMono : List ProxyUsage → List ProxyUsage → Prop
  | [], [] => True
  | o :: os, q :: qs => (o.blacklisted = true → q.blacklisted = true) ∧ blMono os qs
  | _, _ => False
/-- Fixture: a proxy with one recent block in the window. -/
def pW2 : ProxyUsage :=
  { proxyId := "decodo-1", host := "dc.decodo.com", port := 10001, perimeterXBlocks := [0] }
/-- Fixture: a fresh single-proxy pool with `maxUsesPerMinute = 1`. -/
def mgrW1 : DecodoProxyManager :=
  { maxUsesPerMinute := 1, maxWorkers := 1, activeWorkers := 0, currentIndex := 0,
    proxies := [{ proxyId := "decodo-1", host := "dc.decodo.com", port := 10001 }] }
/-- Fixture: an acquire followed by an anti-bot release. -/
def opsW1 : List PoolOp := [PoolOp.acquire 0, PoolOp.release "decodo-1" false true 1]
/-- Invariant tying the concurrency limit, the in-flight count and the
pending staggered starts. -/
def schedInv (c p0 : Nat) (s : SchedState) : Prop :=
  s.limit = c ∧ s.inFlight + s.pending ≤ c + p0 ∧ s.pending ≤ p0
/-- Per-state batch-statistics invariant: `processed` equals the sum of the
three outcome buckets and counts exactly the settled jobs. -/
def statsInv (n : Nat) (s : SchedState) : Prop :=
  s.stats.processed = s.stats.cached + s.stats.scraped + s.stats.failed ∧
  s.stats.processed = s.done ∧
  s.stats.total = n
instance : Inhabited IterRecord := ⟨⟨0, 0, false, 0, none⟩⟩
/-- Helper for the C7 fixture: a disabled proxy. -/
def mkDisabled (pid : String) (port : Nat) : ProxyUsage :=
  { proxyId := pid, host := "dc.decodo.com", port := port, disabled := true }

/-- Fixture: a ten-proxy pool in which only `decodo-1` is enabled. -/
def mgrW7 : DecodoProxyManager :=
  { maxUsesPerMinute := 2, maxWorkers := 2, activeWorkers := 0, currentIndex := 0,
    proxies :=
      { proxyId := "decodo-1", host := "dc.decodo.com", port := 10001 } ::
        [mkDisabled "decodo-2" 10002, mkDisabled "decodo-3" 10003,
         mkDisabled "decodo-4" 10004, mkDisabled "decodo-5" 10005,
         mkDisabled "decodo-6" 10006, mkDisabled "decodo-7" 10007,
         mkDisabled "decodo-8" 10008, mkDisabled "decodo-9" 10009,
         mkDisabled "decodo-10" 10010] }

/-- Fixture: initial orchestrator state over `mgrW7`. -/
def stW7 : DecodoState := { mgr := mgrW7, attempt := 0, lastError := none, tried := [] }

/-- Fixture: two loop iterations, both ending in a PerimeterX block. -/
def schedW7 : List IterSchedule :=
  [⟨0, ScrapeOutcome.pxBlock, []⟩, ⟨100, ScrapeOutcome.pxBlock, []⟩]

/-! Basic lemmas about the embedding. -/

theorem updateFirst_of_no_match (f : ProxyUsage → ProxyUsage) (pid : String) :
    ∀ ps : List ProxyUsage, (∀ p ∈ ps, p.proxyId ≠ pid) → updateFirst f pid ps = ps
  | [], _ => rfl
  | p :: ps, h => by
    have hp : p.proxyId ≠ pid := h p (List.mem_cons_self p ps)
    simp only [updateFirst, if_neg hp]
    rw [updateFirst_of_no_match f pid ps (fun q hq => h q (List.mem_cons_of_mem p hq))]

theorem mem_updateFirst (f : ProxyUsage → ProxyUsage) (pid : String) :
    ∀ ps : List ProxyUsage, ∀ q ∈ updateFirst f pid ps,
      q ∈ ps ∨ ∃ x ∈ ps, q = f x
  | [], q, hq => absurd hq (List.not_mem_nil q)
  | p :: ps, q, hq => by
    by_cases hp : p.proxyId = pid
    · simp only [updateFirst, if_pos hp] at hq
      rw [List.mem_cons] at hq
      rcases hq with hq | hq
      · exact Or.inr ⟨p, List.mem_cons_self p ps, hq⟩
      · exact Or.inl (List.mem_cons_of_mem p hq)

    · simp only [updateFirst, if_neg hp] at hq
      rw [List.mem_cons] at hq
      rcases hq with hq | hq
      · exact Or.inl (hq ▸ List.mem_cons_self p ps)
      · rcases mem_updateFirst f pid ps q hq with h | ⟨x, hx, hfx⟩
        · exact Or.inl (List.mem_cons_of_mem p h)
        · exact Or.inr ⟨x, List.mem_cons_of_mem p hx, hfx⟩

/-- Claim C9: releasing an unknown proxy id still performs the clamped
`activeWorkers` decrement and leaves every proxy (and all other pool
fields) unchanged: the decrement is not conditional on the id matching. -/
theorem releaseProxy_unknown_id (mgr : DecodoProxyManager) (pid : String)
    (success pxBlock : Bool) (now : Int)
    (h : ∀ p ∈ mgr.proxies, p.proxyId ≠ pid) :
    (mgr.releaseProxy pid success pxBlock now).proxies = mgr.proxies ∧
    (mgr.releaseProxy pid success pxBlock now).activeWorkers =
      (if 0 < mgr.activeWorkers then mgr.activeWorkers - 1 else mgr.activeWorkers) ∧
    (mgr.releaseProxy pid success pxBlock now).currentIndex = mgr.currentIndex ∧
    (mgr.releaseProxy pid success pxBlock now).maxWorkers = mgr.maxWorkers ∧
    (mgr.releaseProxy pid success pxBlock now).maxUsesPerMinute = mgr.maxUsesPerMinute := by
  unfold DecodoProxyManager.releaseProxy
  refine ⟨?_, rfl, rfl, rfl, rfl⟩
  exact updateFirst_of_no_match _ pid mgr.proxies h

/-- Witness for C9 at a concrete pool and an id matching no proxy. -/
theorem releaseProxy_unknown_id_witness :
    (mgrW9.releaseProxy "ghost" true false 5).proxies = mgrW9.proxies ∧
    (mgrW9.releaseProxy "ghost" true false 5).activeWorkers = 0 := by
  have h := releaseProxy_unknown_id mgrW9 "ghost" true false 5 (by decide)
  exact ⟨h.1, by rw [h.2.1]; decide⟩

/-! Worker-counter bounds (claim C6). -/

theorem applyOp_activeWorkers_bounds (mgr : DecodoProxyManager) (op : PoolOp)
    (h0 : 0 ≤ mgr.activeWorkers) (h1 : mgr.activeWorkers ≤ mgr.maxWorkers) :
    0 ≤ (applyOp mgr op).activeWorkers ∧
      (applyOp mgr op).activeWorkers ≤ (applyOp mgr op).maxWorkers ∧
      (applyOp mgr op).maxWorkers = mgr.maxWorkers := by
  cases op with
  | acquire now =>
    simp only [applyOp, DecodoProxyManager.getNextProxy]
    by_cases hcap : mgr.maxWorkers ≤ mgr.activeWorkers
    · simp only [if_pos hcap]
      exact ⟨h0, h1, trivial⟩
    · simp only [if_neg hcap]
      rcases hg : (scanLoop mgr.maxUsesPerMinute now mgr.proxies.length mgr.proxies
          mgr.currentIndex []).granted with _ | g
      · simp only [hg]
        exact ⟨h0, h1, trivial⟩
      · simp only [hg]
        exact ⟨by omega, by omega, trivial⟩
  | release pid s b now =>
    simp only [applyOp, DecodoProxyManager.releaseProxy]
    by_cases h : 0 < mgr.activeWorkers
    · simp only [if_pos h]
      exact ⟨by omega, by omega, trivial⟩
    · simp only [if_neg h]
      exact ⟨h0, h1, trivial⟩

/-- Claim C6: along any sequence of acquire (`getNextProxy`) and release
(`releaseProxy`) operations, `0 ≤ activeWorkers ≤ maxWorkers` is preserved:
acquire refuses to grant at the cap and release clamps the decrement at 0.
Applied to every prefix of a sequence this bounds the counter at all
times. -/
theorem activeWorkers_bounded (ops : List PoolOp) (mgr : DecodoProxyManager)
    (h0 : 0 ≤ mgr.activeWorkers) (h1 : mgr.activeWorkers ≤ mgr.maxWorkers) :
    0 ≤ (applyOps mgr ops).activeWorkers ∧
      (applyOps mgr ops).activeWorkers ≤ (applyOps mgr ops).maxWorkers := by
  induction ops generalizing mgr with
  | nil => exact ⟨h0, h1⟩
  | cons op rest ih =>
    have h := applyOp_activeWorkers_bounds mgr op h0 h1
    simpa only [applyOps, List.foldl_cons] using ih (applyOp mgr op) h.1 h.2.1

/-- Witness for C6: a concrete pool at the cap; an acquire (refused), two
releases (the second clamped) and a further acquire keep the counter in
range. -/
theorem activeWorkers_bounded_witness :
    0 ≤ (applyOps mgrW9 [PoolOp.acquire 0, PoolOp.release "decodo-1" true false 1,
        PoolOp.release "decodo-1" false false 2, PoolOp.acquire 3]).activeWorkers ∧
      (applyOps mgrW9 [PoolOp.acquire 0, PoolOp.release "decodo-1" true false 1,
        PoolOp.release "decodo-1" false false 2, PoolOp.acquire 3]).activeWorkers ≤
        (applyOps mgrW9 [PoolOp.acquire 0, PoolOp.release "decodo-1" true false 1,
        PoolOp.release "decodo-1" false false 2, PoolOp.acquire 3]).maxWorkers :=
  activeWorkers_bounded _ mgrW9 (by decide) (by decide)

/-! Cursor movement and persistence (claim C10). -/

theorem scanLoop_cursor (m : Nat) (now : Int) :
    ∀ (fuel : Nat) (ps : List ProxyUsage) (idx : Nat) (log : List Nat),
      idx < ps.length →
      ∃ k, k ≤ fuel ∧
        (scanLoop m now fuel ps idx log).idx = (idx + k) % ps.length ∧
        (scanLoop m now fuel ps idx log).persisted =
          log ++ (List.range k).map (fun j => (idx + j + 1) % ps.length) ∧
        (scanLoop m now fuel ps idx log).proxies.length = ps.length ∧
        ((scanLoop m now fuel ps idx log).granted = none → k = fuel) := by
  intro fuel
  induction fuel with
  | zero =>
    intro ps idx log h
    exact ⟨0, Nat.le_refl 0, by simp [scanLoop, Nat.mod_eq_of_lt h], by simp [scanLoop],
      by simp [scanLoop], fun _ => rfl⟩
  | succ fuel ih =>
    intro ps idx log h
    have hlen : 0 < ps.length := Nat.lt_of_le_of_lt (Nat.zero_le idx) h
    have hidx' : (idx + 1) % ps.length < ps.length := Nat.mod_lt _ hlen
    have hstep : ∀ k, ((idx + 1) % ps.length + k) % ps.length = (idx + (k + 1)) % ps.length := by
      intro k
      rw [Nat.mod_add_mod]
      congr 1
      omega
    have htrail : ∀ k,
        ([(idx + 1) % ps.length] ++
          (List.range k).map (fun j => ((idx + 1) % ps.length + j + 1) % ps.length)) =
        (List.range (k + 1)).map (fun j => (idx + j + 1) % ps.length) := by
      intro k
      rw [List.range_succ_eq_map, List.map_cons, List.map_map, List.singleton_append]
      congr 1
      refine List.map_congr_left fun j _ => ?_
      simp only [Function.comp_apply, Nat.succ_eq_add_one]
      rw [show (idx + 1) % ps.length + j + 1 = (idx + 1) % ps.length + (j + 1) by omega,
        Nat.mod_add_mod]
      congr 1
      omega
    simp only [scanLoop]
    by_cases h1 : (ps.getD idx default).disabled
    · simp only [if_pos h1]
      obtain ⟨k, hk, hi, hp, hl, hn⟩ := ih ps ((idx + 1) % ps.length)
        (log ++ [(idx + 1) % ps.length]) hidx'
      exact ⟨k + 1, by omega, by rw [hi, hstep],
        by rw [hp, List.append_assoc, htrail], hl, fun hg => by rw [hn hg]⟩
    · simp only [if_neg h1]
      by_cases h2 : (ps.getD idx default).blacklisted
      · simp only [if_pos h2]
        obtain ⟨k, hk, hi, hp, hl, hn⟩ := ih ps ((idx + 1) % ps.length)
          (log ++ [(idx + 1) % ps.length]) hidx'
        exact ⟨k + 1, by omega, by rw [hi, hstep],
          by rw [hp, List.append_assoc, htrail], hl, fun hg => by rw [hn hg]⟩
      · simp only [if_neg h2]
        by_cases h3 : (ps.getD idx default).cooldownActive now = true
        · simp only [if_pos h3]
          obtain ⟨k, hk, hi, hp, hl, hn⟩ := ih ps ((idx + 1) % ps.length)
            (log ++ [(idx + 1) % ps.length]) hidx'
          exact ⟨k + 1, by omega, by rw [hi, hstep],
            by rw [hp, List.append_assoc, htrail], hl, fun hg => by rw [hn hg]⟩
        · simp only [if_neg h3]
          by_cases h4 : ((ps.getD idx default).canUse now m).1 = true
          · simp only [if_pos h4]
            refine ⟨1, by omega, rfl, by simpa using htrail 0, by simp, by intro hg; cases hg⟩
          · simp only [if_neg h4]
            have hset : (ps.set idx ((ps.getD idx default).canUse now m).2).length = ps.length :=
              List.length_set ps idx _
            obtain ⟨k, hk, hi, hp, hl, hn⟩ := ih (ps.set idx ((ps.getD idx default).canUse now m).2)
              ((idx + 1) % ps.length) (log ++ [(idx + 1) % ps.length]) (by rw [hset]; exact hidx')
            refine ⟨k + 1, by omega, ?_, ?_, by rw [hl, hset], fun hg => by rw [hn hg]⟩
            · rw [hi, hset, hstep]
            · rw [hp, hset, List.append_assoc, htrail]

/-- Claim C10: every candidate scanned by `getNextProxy` advances the
rotation cursor by one position modulo the pool size and persists it
(`saveState` per scanned candidate), including skipped candidates and calls
that end in `null`: with the worker cap not reached, the persisted trail is
the k consecutive cursor values after the start position for some
`k ≤ poolSize`, the final cursor is the start advanced by `k`, and a
`null` result after the scan has `k = poolSize`.  At the worker cap the
call returns immediately: no cursor movement, nothing persisted. -/
theorem getNextProxy_cursor (mgr : DecodoProxyManager) (now : Int)
    (h : mgr.currentIndex < mgr.proxies.length) :
    (mgr.maxWorkers ≤ mgr.activeWorkers →
      mgr.getNextProxy now = ⟨none, mgr, []⟩) ∧
    (mgr.activeWorkers < mgr.maxWorkers →
      ∃ k, k ≤ mgr.proxies.length ∧
        (mgr.getNextProxy now).persisted =
          (List.range k).map (fun j => (mgr.currentIndex + j + 1) % mgr.proxies.length) ∧
        (mgr.getNextProxy now).state.currentIndex =
          (mgr.currentIndex + k) % mgr.proxies.length ∧
        ((mgr.getNextProxy now).granted = none → k = mgr.proxies.length)) := by
  refine ⟨fun hcap => by simp only [DecodoProxyManager.getNextProxy, if_pos hcap], fun hlt => ?_⟩
  have hcap : ¬ mgr.maxWorkers ≤ mgr.activeWorkers := not_le.mpr hlt
  obtain ⟨k, hk, hi, hp, _, hn⟩ := scanLoop_cursor mgr.maxUsesPerMinute now mgr.proxies.length
    mgr.proxies mgr.currentIndex [] h
  rw [List.nil_append] at hp
  refine ⟨k, hk, ?_, ?_, ?_⟩
  · rcases hg : (scanLoop mgr.maxUsesPerMinute now mgr.proxies.length mgr.proxies
        mgr.currentIndex []).granted with _ | g <;>
      simp only [DecodoProxyManager.getNextProxy, if_neg hcap, hg] <;> exact hp
  · rcases hg : (scanLoop mgr.maxUsesPerMinute now mgr.proxies.length mgr.proxies
        mgr.currentIndex []).granted with _ | g <;>
      simp only [DecodoProxyManager.getNextProxy, if_neg hcap, hg] <;> exact hi
  · rcases hg : (scanLoop mgr.maxUsesPerMinute now mgr.proxies.length mgr.proxies
        mgr.currentIndex []).granted with _ | g <;>
      simp only [DecodoProxyManager.getNextProxy, if_neg hcap, hg]
    · intro _; exact hn hg
    · intro h'; cases h'

/-- Witness for C10: on a concrete all-disabled pool the acquire fails and
the cursor trail is as stated. -/
theorem getNextProxy_cursor_witness :
    mgrW10.activeWorkers < mgrW10.maxWorkers ∧
    (∃ k, k ≤ mgrW10.proxies.length ∧
      (mgrW10.getNextProxy 7).persisted =
        (List.range k).map (fun j => (mgrW10.currentIndex + j + 1) % mgrW10.proxies.length) ∧
      (mgrW10.getNextProxy 7).state.currentIndex =
        (mgrW10.currentIndex + k) % mgrW10.proxies.length ∧
      ((mgrW10.getNextProxy 7).granted = none → k = mgrW10.proxies.length)) :=
  ⟨by decide, (getNextProxy_cursor mgrW10 7 (by decide)).2 (by decide)⟩

/-! Eligibility of granted proxies (claims C5 and C2's blacklist skip). -/

theorem windowCount_filter (now : Int) (l : List Int) :
    windowCount now (l.filter fun t => decide (now - 60000 < t)) = windowCount now l := by
  simp [windowCount, List.filter_filter]

theorem viewEq_refl (now : Int) (a : ProxyUsage) : viewEq now a a :=
  ⟨rfl, rfl, rfl, rfl, rfl⟩

theorem viewEq_canUse (now : Int) (m : Nat) (a b : ProxyUsage) (h : viewEq now a b) :
    viewEq now a (b.canUse now m).2 := by
  unfold ProxyUsage.canUse
  by_cases h1 : b.blacklisted
  · simpa [h1] using h
  · by_cases h2 : b.cooldownActive now
    · simpa [h1, h2] using h
    · simp only [if_neg h1, if_neg h2]
      obtain ⟨e1, e2, e3, e4, e5⟩ := h
      exact ⟨e1, e2, e3, e4, by rw [show windowCount now
        (b.recentUses.filter fun t => decide (now - 60000 < t)) = windowCount now b.recentUses
        from windowCount_filter now b.recentUses]; exact e5⟩

theorem sameView_refl (now : Int) (ps : List ProxyUsage) : sameView now ps ps :=
  ⟨rfl, fun _ _ _ => viewEq_refl now _⟩

theorem sameView_set (now : Int) (ps0 ps : List ProxyUsage) (h : sameView now ps0 ps)
    (i : Nat) (x : ProxyUsage)
    (hx : ∀ hi : i < ps0.length, viewEq now (ps0.get ⟨i, hi⟩) x) :
    sameView now ps0 (ps.set i x) := by
  obtain ⟨hlen, hview⟩ := h
  refine ⟨by rw [List.length_set, hlen], fun j hj hj2 => ?_⟩
  have hj3 : j < ps.length := by rw [List.length_set] at hj2; exact hj2
  by_cases hij : i = j
  · subst hij
    have : (ps.set i x).get ⟨i, hj2⟩ = x := by simp
    rw [this]
    exact hx hj
  · have : (ps.set i x).get ⟨j, hj2⟩ = ps.get ⟨j, hj3⟩ := by
      simp [List.getElem_set_ne hij]
    rw [this]
    exact hview j hj hj3

theorem scanLoop_granted_eligible (m : Nat) (now : Int) :
    ∀ (fuel : Nat) (ps0 ps : List ProxyUsage) (idx : Nat) (log : List Nat),
      sameView now ps0 ps → idx < ps.length →
      ∀ i pid, (scanLoop m now fuel ps idx log).granted = some (i, pid) →
      ∃ hi : i < ps0.length,
        (ps0.get ⟨i, hi⟩).disabled = false ∧
        (ps0.get ⟨i, hi⟩).blacklisted = false ∧
        (ps0.get ⟨i, hi⟩).cooldownActive now = false ∧
        windowCount now (ps0.get ⟨i, hi⟩).recentUses < m ∧
        pid = (ps0.get ⟨i, hi⟩).proxyId := by
  intro fuel
  induction fuel with
  | zero => intro ps0 ps idx log _ _ i pid hg; cases hg
  | succ fuel ih =>
    intro ps0 ps idx log hsv hidx i pid hg
    have hlen : 0 < ps.length := Nat.lt_of_le_of_lt (Nat.zero_le idx) hidx
    have hidx' : (idx + 1) % ps.length < ps.length := Nat.mod_lt _ hlen
    have hgetD : ps.getD idx default = ps.get ⟨idx, hidx⟩ := by
      simp [List.getD_eq_getElem?_getD, List.getElem?_eq_getElem hidx]
    simp only [scanLoop] at hg
    by_cases h1 : (ps.getD idx default).disabled
    · rw [if_pos h1] at hg
      exact ih ps0 ps ((idx + 1) % ps.length) _ hsv hidx' i pid hg
    · rw [if_neg h1] at hg
      by_cases h2 : (ps.getD idx default).blacklisted
      · rw [if_pos h2] at hg
        exact ih ps0 ps ((idx + 1) % ps.length) _ hsv hidx' i pid hg
      · rw [if_neg h2] at hg
        by_cases h3 : (ps.getD idx default).cooldownActive now = true
        · rw [if_pos h3] at hg
          exact ih ps0 ps ((idx + 1) % ps.length) _ hsv hidx' i pid hg
        · rw [if_neg h3] at hg
          by_cases h4 : ((ps.getD idx default).canUse now m).1 = true
          · rw [if_pos h4] at hg
            -- the grant: i = idx, pid is the scanned proxy's id
            cases hg
            have hi2 : idx < ps0.length := by
              have := hsv.1; omega
            obtain ⟨e1, e2, e3, e4, e5⟩ := hsv.2 idx hi2 hidx
            rw [hgetD] at h1 h2 h3 h4
            have hrate : windowCount now (ps.get ⟨idx, hidx⟩).recentUses < m := by
              unfold ProxyUsage.canUse at h4
              rw [if_neg h2, if_neg h3] at h4
              simpa [windowCount] using h4
            have hcdeq : (ps0.get ⟨idx, hi2⟩).cooldownActive now =
                (ps.get ⟨idx, hidx⟩).cooldownActive now := by
              unfold ProxyUsage.cooldownActive
              rw [e3]
            refine ⟨hi2, ?_, ?_, ?_, ?_, ?_⟩
            · rw [← e1]; simpa using h1
            · rw [← e2]; simpa using h2
            · rw [hcdeq]; simpa using h3
            · rw [← e5]; exact hrate
            · rw [hgetD]; exact e4
          · rw [if_neg h4] at hg
            have hsv2 : sameView now ps0 (ps.set idx ((ps.getD idx default).canUse now m).2) := by
              refine sameView_set now ps0 ps hsv idx _ fun hi0 => ?_
              rw [hgetD]
              exact viewEq_canUse now m _ _ (hsv.2 idx hi0 hidx)
            exact ih ps0 (ps.set idx ((ps.getD idx default).canUse now m).2)
              ((idx + 1) % ps.length) _ hsv2 (by rw [List.length_set]; exact hidx') i pid hg

/-- Shared helper: a grant returned by `getNextProxy` designates a proxy
that was eligible in the pool state at call time. -/
theorem getNextProxy_granted_eligible (mgr : DecodoProxyManager) (now : Int)
    (h : mgr.currentIndex < mgr.proxies.length) :
    ∀ i pid, (mgr.getNextProxy now).granted = some (i, pid) →
      ∃ hi : i < mgr.proxies.length,
        (mgr.proxies.get ⟨i, hi⟩).disabled = false ∧
        (mgr.proxies.get ⟨i, hi⟩).blacklisted = false ∧
        (mgr.proxies.get ⟨i, hi⟩).cooldownActive now = false ∧
        windowCount now (mgr.proxies.get ⟨i, hi⟩).recentUses < mgr.maxUsesPerMinute ∧
        pid = (mgr.proxies.get ⟨i, hi⟩).proxyId := by
  intro i pid hg
  by_cases hcap : mgr.maxWorkers ≤ mgr.activeWorkers
  · simp [DecodoProxyManager.getNextProxy, if_pos hcap] at hg
  · have hg' : (scanLoop mgr.maxUsesPerMinute now mgr.proxies.length mgr.proxies
        mgr.currentIndex []).granted = some (i, pid) := by
      rcases hG : (scanLoop mgr.maxUsesPerMinute now mgr.proxies.length mgr.proxies
          mgr.currentIndex []).granted with _ | g
      · simp only [DecodoProxyManager.getNextProxy, if_neg hcap, hG] at hg
        cases hg
      · simp only [DecodoProxyManager.getNextProxy, if_neg hcap, hG] at hg
        exact hg
    exact scanLoop_granted_eligible mgr.maxUsesPerMinute now mgr.proxies.length mgr.proxies
      mgr.proxies mgr.currentIndex [] (sameView_refl now mgr.proxies) h i pid hg'

/-- Claim C5: `getNextProxy` never grants a disabled, blacklisted,
presently-cooling-down, or rate-limited proxy; it returns `null` leaving
the pool untouched when `activeWorkers` has reached `maxWorkers`; and every
call scans (and persists the cursor for) at most `poolSize` candidates, so
it cannot loop indefinitely. -/
theorem getNextProxy_spec (mgr : DecodoProxyManager) (now : Int)
    (h : mgr.currentIndex < mgr.proxies.length) :
    (mgr.maxWorkers ≤ mgr.activeWorkers →
      (mgr.getNextProxy now).granted = none ∧ (mgr.getNextProxy now).state = mgr) ∧
    (∀ i pid, (mgr.getNextProxy now).granted = some (i, pid) →
      ∃ hi : i < mgr.proxies.length,
        (mgr.proxies.get ⟨i, hi⟩).disabled = false ∧
        (mgr.proxies.get ⟨i, hi⟩).blacklisted = false ∧
        (mgr.proxies.get ⟨i, hi⟩).cooldownActive now = false ∧
        windowCount now (mgr.proxies.get ⟨i, hi⟩).recentUses < mgr.maxUsesPerMinute ∧
        pid = (mgr.proxies.get ⟨i, hi⟩).proxyId) ∧
    (mgr.getNextProxy now).persisted.length ≤ mgr.proxies.length := by
  refine ⟨fun hcap => by simp [DecodoProxyManager.getNextProxy, if_pos hcap],
    getNextProxy_granted_eligible mgr now h, ?_⟩
  by_cases hcap : mgr.maxWorkers ≤ mgr.activeWorkers
  · simp [DecodoProxyManager.getNextProxy, if_pos hcap]
  · obtain ⟨k, hk, _, hp, _, _⟩ := scanLoop_cursor mgr.maxUsesPerMinute now mgr.proxies.length
      mgr.proxies mgr.currentIndex [] h
    have hpers : (mgr.getNextProxy now).persisted =
        (scanLoop mgr.maxUsesPerMinute now mgr.proxies.length mgr.proxies
          mgr.currentIndex []).persisted := by
      rcases hG : (scanLoop mgr.maxUsesPerMinute now mgr.proxies.length mgr.proxies
          mgr.currentIndex []).granted with _ | g <;>
        simp only [DecodoProxyManager.getNextProxy, if_neg hcap, hG]
    rw [hpers, hp]
    simpa using hk

/-- Witness for C5 at a concrete pool: the grant returned by a concrete
acquire satisfies every eligibility conjunct. -/
theorem getNextProxy_spec_witness :
    ∃ hi : 0 < mgrW9.proxies.length,
      (mgrW9.proxies.get ⟨0, hi⟩).disabled = false ∧
      (mgrW9.proxies.get ⟨0, hi⟩).blacklisted = false ∧
      (mgrW9.proxies.get ⟨0, hi⟩).cooldownActive 3 = false ∧
      windowCount 3 (mgrW9.proxies.get ⟨0, hi⟩).recentUses < mgrW9.maxUsesPerMinute ∧
      "decodo-1" = (mgrW9.proxies.get ⟨0, hi⟩).proxyId :=
  (getNextProxy_spec mgrW9 3 (by decide)).2.1 0 "decodo-1" (by decide)

/-! PerimeterX escalation and blacklist permanence (claim C2). -/

theorem recordPerimeterXBlock_escalation (p : ProxyUsage) (now : Int) :
    (p.recordPerimeterXBlock now).perimeterXBlocks =
      (p.perimeterXBlocks ++ [now]).filter (fun t => decide (now - 1200000 < t)) ∧
    1 ≤ (p.recordPerimeterXBlock now).perimeterXBlocks.length ∧
    ((p.recordPerimeterXBlock now).perimeterXBlocks.length = 1 →
      (p.recordPerimeterXBlock now).cooldownLevel = 0 ∧
      (p.recordPerimeterXBlock now).cooldownUntil = none ∧
      (p.recordPerimeterXBlock now).blacklisted = p.blacklisted) ∧
    ((p.recordPerimeterXBlock now).perimeterXBlocks.length = 2 →
      (p.recordPerimeterXBlock now).cooldownLevel = 1 ∧
      (p.recordPerimeterXBlock now).cooldownUntil = some (now + 1200000) ∧
      (p.recordPerimeterXBlock now).blacklisted = p.blacklisted) ∧
    ((p.recordPerimeterXBlock now).perimeterXBlocks.length = 3 →
      (p.recordPerimeterXBlock now).cooldownLevel = 2 ∧
      (p.recordPerimeterXBlock now).cooldownUntil = some (now + 7200000) ∧
      (p.recordPerimeterXBlock now).blacklisted = p.blacklisted) ∧
    ((p.recordPerimeterXBlock now).perimeterXBlocks.length = 4 →
      (p.recordPerimeterXBlock now).cooldownLevel = 3 ∧
      (p.recordPerimeterXBlock now).cooldownUntil = some (now + 86400000) ∧
      (p.recordPerimeterXBlock now).blacklisted = p.blacklisted) ∧
    (5 ≤ (p.recordPerimeterXBlock now).perimeterXBlocks.length →
      (p.recordPerimeterXBlock now).cooldownLevel = 4 ∧
      (p.recordPerimeterXBlock now).blacklisted = true ∧
      (p.recordPerimeterXBlock now).cooldownUntil = none) := by
  have hmem : now ∈ (p.perimeterXBlocks ++ [now]).filter (fun t => decide (now - 1200000 < t)) :=
    List.mem_filter.mpr ⟨by simp, by simp⟩
  have hpos : 0 < ((p.perimeterXBlocks ++ [now]).filter
      (fun t => decide (now - 1200000 < t))).length :=
    List.length_pos.mpr (fun he => by rw [he] at hmem; cases hmem)
  simp only [ProxyUsage.recordPerimeterXBlock]
  set blocks := (p.perimeterXBlocks ++ [now]).filter (fun t => decide (now - 1200000 < t))
    with hbdef
  split_ifs with h1 h2 h3 h4 h5
  · exact ⟨rfl, hpos, fun _ => ⟨rfl, rfl, rfl⟩,
      fun hn => absurd (show blocks.length = 2 from hn) (by omega),
      fun hn => absurd (show blocks.length = 3 from hn) (by omega),
      fun hn => absurd (show blocks.length = 4 from hn) (by omega),
      fun hn => absurd (show 5 ≤ blocks.length from hn) (by omega)⟩
  · exact ⟨rfl, hpos,
      fun hn => absurd (show blocks.length = 1 from hn) (by omega),
      fun _ => ⟨rfl, rfl, rfl⟩,
      fun hn => absurd (show blocks.length = 3 from hn) (by omega),
      fun hn => absurd (show blocks.length = 4 from hn) (by omega),
      fun hn => absurd (show 5 ≤ blocks.length from hn) (by omega)⟩
  · exact ⟨rfl, hpos,
      fun hn => absurd (show blocks.length = 1 from hn) (by omega),
      fun hn => absurd (show blocks.length = 2 from hn) (by omega),
      fun _ => ⟨rfl, rfl, rfl⟩,
      fun hn => absurd (show blocks.length = 4 from hn) (by omega),
      fun hn => absurd (show 5 ≤ blocks.length from hn) (by omega)⟩
  · exact ⟨rfl, hpos,
      fun hn => absurd (show blocks.length = 1 from hn) (by omega),
      fun hn => absurd (show blocks.length = 2 from hn) (by omega),
      fun hn => absurd (show blocks.length = 3 from hn) (by omega),
      fun _ => ⟨rfl, rfl, rfl⟩,
      fun hn => absurd (show 5 ≤ blocks.length from hn) (by omega)⟩
  · exact ⟨rfl, hpos,
      fun hn => absurd (show blocks.length = 1 from hn) (by omega),
      fun hn => absurd (show blocks.length = 2 from hn) (by omega),
      fun hn => absurd (show blocks.length = 3 from hn) (by omega),
      fun hn => absurd (show blocks.length = 4 from hn) (by omega),
      fun _ => ⟨rfl, rfl, rfl⟩⟩
  · exact absurd hpos (by omega)

theorem blMono_refl : ∀ ps : List ProxyUsage, blMono ps ps
  | [] => trivial
  | _ :: ps => ⟨fun h => h, blMono_refl ps⟩

theorem blMono_trans : ∀ {l1 l2 l3 : List ProxyUsage},
    blMono l1 l2 → blMono l2 l3 → blMono l1 l3
  | [], [], [], _, _ => trivial
  | _ :: _, _ :: _, _ :: _, h12, h23 =>
    ⟨fun h => h23.1 (h12.1 h), blMono_trans h12.2 h23.2⟩

theorem blMono_set : ∀ (ps : List ProxyUsage) (i : Nat) (x : ProxyUsage),
    (∀ hi : i < ps.length, (ps.get ⟨i, hi⟩).blacklisted = true → x.blacklisted = true) →
    blMono ps (ps.set i x)
  | [], _, _, _ => trivial
  | p :: ps, 0, x, h => ⟨fun hb => h (by simp) hb, blMono_refl ps⟩
  | p :: ps, i + 1, x, h =>
    ⟨fun hb => hb, blMono_set ps i x (fun hi hb => h (by simpa using Nat.succ_lt_succ hi) hb)⟩

theorem canUse_snd_blacklisted (p : ProxyUsage) (now : Int) (m : Nat) :
    ((p.canUse now m).2).blacklisted = p.blacklisted := by
  unfold ProxyUsage.canUse
  split_ifs <;> rfl

theorem markUsed_blacklisted (p : ProxyUsage) (now : Int) :
    (p.markUsed now).blacklisted = p.blacklisted := rfl

theorem recordSuccess_blacklisted (p : ProxyUsage) (now : Int) :
    (p.recordSuccess now).blacklisted = p.blacklisted := by
  unfold ProxyUsage.recordSuccess
  split_ifs <;> rfl

theorem recordPerimeterXBlock_blacklisted_mono (p : ProxyUsage) (now : Int)
    (h : p.blacklisted = true) : (p.recordPerimeterXBlock now).blacklisted = true := by
  simp only [ProxyUsage.recordPerimeterXBlock]
  split_ifs <;> dsimp only <;> first | rfl | exact h

theorem blMono_scanLoop (m : Nat) (now : Int) :
    ∀ (fuel : Nat) (ps : List ProxyUsage) (idx : Nat) (log : List Nat),
      blMono ps (scanLoop m now fuel ps idx log).proxies := by
  intro fuel
  induction fuel with
  | zero => intro ps idx log; exact blMono_refl ps
  | succ fuel ih =>
    intro ps idx log
    simp only [scanLoop]
    split_ifs with h1 h2 h3 h4
    · exact ih ps _ _
    · exact ih ps _ _
    · exact ih ps _ _
    · refine blMono_set ps idx _ (fun hi hb => ?_)
      have hgd : ps.getD idx default = ps.get ⟨idx, hi⟩ := by
        simp [List.getD_eq_getElem?_getD, List.getElem?_eq_getElem hi]
      rw [markUsed_blacklisted, canUse_snd_blacklisted, hgd]
      exact hb
    · refine blMono_trans (blMono_set ps idx _ (fun hi hb => ?_)) (ih _ _ _)
      have hgd : ps.getD idx default = ps.get ⟨idx, hi⟩ := by
        simp [List.getD_eq_getElem?_getD, List.getElem?_eq_getElem hi]
      rw [canUse_snd_blacklisted, hgd]
      exact hb

theorem blMono_updateFirst (f : ProxyUsage → ProxyUsage) (pid : String)
    (hf : ∀ p : ProxyUsage, p.blacklisted = true → (f p).blacklisted = true) :
    ∀ ps : List ProxyUsage, blMono ps (updateFirst f pid ps)
  | [] => trivial
  | p :: ps => by
    unfold updateFirst
    split_ifs with h
    · exact ⟨fun hb => hf p hb, blMono_refl ps⟩
    · exact ⟨fun hb => hb, blMono_updateFirst f pid hf ps⟩

theorem applyOp_blMono (mgr : DecodoProxyManager) (op : PoolOp) :
    blMono mgr.proxies (applyOp mgr op).proxies := by
  cases op with
  | acquire now =>
    simp only [applyOp, DecodoProxyManager.getNextProxy]
    by_cases hcap : mgr.maxWorkers ≤ mgr.activeWorkers
    · simp only [if_pos hcap]
      exact blMono_refl _
    · simp only [if_neg hcap]
      rcases hg : (scanLoop mgr.maxUsesPerMinute now mgr.proxies.length mgr.proxies
          mgr.currentIndex []).granted with _ | g <;>
        simp only [hg] <;>
        exact blMono_scanLoop mgr.maxUsesPerMinute now mgr.proxies.length mgr.proxies
          mgr.currentIndex []
  | release pid s b now =>
    simp only [applyOp, DecodoProxyManager.releaseProxy]
    refine blMono_updateFirst _ pid (fun p hb => ?_) mgr.proxies
    split_ifs
    · simpa [ProxyUsage.markFailed] using recordPerimeterXBlock_blacklisted_mono p now hb
    · rw [recordSuccess_blacklisted]; exact hb
    · simpa [ProxyUsage.markFailed] using hb

theorem applyOps_blMono (ops : List PoolOp) (mgr : DecodoProxyManager) :
    blMono mgr.proxies (applyOps mgr ops).proxies := by
  induction ops generalizing mgr with
  | nil => exact blMono_refl _
  | cons op rest ih =>
    exact blMono_trans (applyOp_blMono mgr op)
      (by simpa only [applyOps, List.foldl_cons] using ih (applyOp mgr op))

/-- Claim C2: an anti-bot release appends the block timestamp, prunes the
20-minute window, and escalates strictly on the pruned count
(1 no cooldown, 2 twenty minutes, 3 two hours, 4 twenty-four hours,
5 or more permanent blacklist); once blacklisted a proxy stays blacklisted
under every further acquire/release, and an acquire never grants a
blacklisted proxy. -/
theorem perimeterXBlock_escalation_spec :
    (∀ (p : ProxyUsage) (now : Int),
      ((p.recordPerimeterXBlock now).perimeterXBlocks.length = 1 →
        (p.recordPerimeterXBlock now).cooldownLevel = 0 ∧
        (p.recordPerimeterXBlock now).cooldownUntil = none ∧
        (p.recordPerimeterXBlock now).blacklisted = p.blacklisted) ∧
      ((p.recordPerimeterXBlock now).perimeterXBlocks.length = 2 →
        (p.recordPerimeterXBlock now).cooldownLevel = 1 ∧
        (p.recordPerimeterXBlock now).cooldownUntil = some (now + 1200000) ∧
        (p.recordPerimeterXBlock now).blacklisted = p.blacklisted) ∧
      ((p.recordPerimeterXBlock now).perimeterXBlocks.length = 3 →
        (p.recordPerimeterXBlock now).cooldownLevel = 2 ∧
        (p.recordPerimeterXBlock now).cooldownUntil = some (now + 7200000) ∧
        (p.recordPerimeterXBlock now).blacklisted = p.blacklisted) ∧
      ((p.recordPerimeterXBlock now).perimeterXBlocks.length = 4 →
        (p.recordPerimeterXBlock now).cooldownLevel = 3 ∧
        (p.recordPerimeterXBlock now).cooldownUntil = some (now + 86400000) ∧
        (p.recordPerimeterXBlock now).blacklisted = p.blacklisted) ∧
      (5 ≤ (p.recordPerimeterXBlock now).perimeterXBlocks.length →
        (p.recordPerimeterXBlock now).cooldownLevel = 4 ∧
        (p.recordPerimeterXBlock now).blacklisted = true ∧
        (p.recordPerimeterXBlock now).cooldownUntil = none) ∧
      (p.recordPerimeterXBlock now).perimeterXBlocks =
        (p.perimeterXBlocks ++ [now]).filter (fun t => decide (now - 1200000 < t))) ∧
    (∀ (mgr : DecodoProxyManager) (ops : List PoolOp),
      blMono mgr.proxies (applyOps mgr ops).proxies) ∧
    (∀ (mgr : DecodoProxyManager) (now : Int),
      mgr.currentIndex < mgr.proxies.length →
      ∀ i pid, (mgr.getNextProxy now).granted = some (i, pid) →
      ∃ hi : i < mgr.proxies.length, (mgr.proxies.get ⟨i, hi⟩).blacklisted = false) := by
  refine ⟨fun p now => ?_, fun mgr ops => applyOps_blMono ops mgr, fun mgr now h i pid hg => ?_⟩
  · obtain ⟨he, _, h1, h2, h3, h4, h5⟩ := recordPerimeterXBlock_escalation p now
    exact ⟨h1, h2, h3, h4, h5, he⟩
  · obtain ⟨hi, _, hb, _⟩ := getNextProxy_granted_eligible mgr now h i pid hg
    exact ⟨hi, hb⟩

/-- Witness for C2: a second block within the window at a concrete instant
escalates to level 1 with a 20-minute cooldown. -/
theorem perimeterXBlock_escalation_spec_witness :
    (pW2.recordPerimeterXBlock 5).cooldownLevel = 1 ∧
      (pW2.recordPerimeterXBlock 5).cooldownUntil = some 1200005 :=
  have h := (perimeterXBlock_escalation_spec.1 pW2 5).2.1 (by decide)
  ⟨h.1, h.2.1⟩

/-! The 60-second rate-limit window (claim C1). -/

/-- Counterexample to C1 as stated: one acquire at t=0 (granted, one use
recorded) followed by one success release at t=1 brings the proxy's
trailing-60s use count to 2, exceeding `maxUsesPerMinute = 1` — because
`releaseProxy` on success calls `recordSuccess`, which appends a use
timestamp with no rate check. -/
theorem rateLimit_window_counterexample :
    mgrW1.maxUsesPerMinute = 1 ∧
    windowCount 1 ((applyOps mgrW1 [PoolOp.acquire 0,
      PoolOp.release "decodo-1" true false 1]).proxies.headD default).recentUses = 2 := by
  decide

theorem filter_length_mono {α : Type} (p q : α → Bool) (h : ∀ a, p a = true → q a = true) :
    ∀ l : List α, (l.filter p).length ≤ (l.filter q).length := by
  intro l
  induction l with
  | nil => simp
  | cons a l ih =>
    by_cases hp : p a = true
    · rw [List.filter_cons_of_pos hp, List.filter_cons_of_pos (h a hp)]
      simpa using ih
    · rw [List.filter_cons_of_neg (by simpa using hp)]
      by_cases hq : q a = true
      · rw [List.filter_cons_of_pos hq]
        exact Nat.le_succ_of_le ih
      · rw [List.filter_cons_of_neg (by simpa using hq)]
        exact ih

theorem windowCount_mono (t t' : Int) (h : t ≤ t') (l : List Int) :
    windowCount t' l ≤ windowCount t l := by
  unfold windowCount
  exact filter_length_mono _ _ (fun a ha => by
    simp only [decide_eq_true_eq] at ha ⊢
    omega) l

theorem windowCount_append_now (now : Int) (l : List Int) :
    windowCount now (l ++ [now]) = windowCount now l + 1 := by
  unfold windowCount
  rw [List.filter_append, List.length_append]
  simp

theorem windowCount_of_filter (now : Int) (l : List Int) :
    windowCount now (l.filter fun t => decide (now - 60000 < t)) =
      (l.filter fun t => decide (now - 60000 < t)).length := by
  rw [windowCount_filter]
  rfl

theorem canUse_true (p : ProxyUsage) (now : Int) (m : Nat)
    (h : (p.canUse now m).1 = true) :
    ((p.canUse now m).2).recentUses = p.recentUses.filter (fun t => decide (now - 60000 < t)) ∧
    ((p.canUse now m).2).recentUses.length < m := by
  by_cases h1 : p.blacklisted
  · exfalso
    unfold ProxyUsage.canUse at h
    rw [if_pos h1] at h
    simp at h
  · by_cases h2 : p.cooldownActive now
    · exfalso
      unfold ProxyUsage.canUse at h
      rw [if_neg h1, if_pos h2] at h
      simp at h
    · have hc : p.canUse now m =
          (decide ((p.recentUses.filter fun t => decide (now - 60000 < t)).length < m),
            { p with recentUses := p.recentUses.filter fun t => decide (now - 60000 < t) }) := by
        unfold ProxyUsage.canUse
        rw [if_neg h1, if_neg h2]
      rw [hc] at h ⊢
      exact ⟨rfl, by simpa using h⟩

theorem scanLoop_windowInv (m : Nat) (now : Int) :
    ∀ (fuel : Nat) (ps : List ProxyUsage) (idx : Nat) (log : List Nat),
      (∀ q ∈ ps, windowCount now q.recentUses ≤ m) →
      ∀ q ∈ (scanLoop m now fuel ps idx log).proxies, windowCount now q.recentUses ≤ m := by
  intro fuel
  induction fuel with
  | zero => intro ps idx log hInv; exact hInv
  | succ fuel ih =>
    intro ps idx log hInv
    simp only [scanLoop]
    split_ifs with h1 h2 h3 h4
    · exact ih ps _ _ hInv
    · exact ih ps _ _ hInv
    · exact ih ps _ _ hInv
    · -- the grant: the set element is the pruned list plus the new instant
      intro q hq
      rcases List.mem_or_eq_of_mem_set hq with hmem | heq
      · exact hInv q hmem
      · subst heq
        obtain ⟨hru, hlt⟩ := canUse_true _ now m h4
        simp only [ProxyUsage.markUsed]
        rw [hru] at hlt ⊢
        rw [windowCount_append_now, windowCount_of_filter]
        omega
    · -- rate-check rejection: the set element is only pruned
      refine ih _ _ _ (fun q hq => ?_)
      rcases List.mem_or_eq_of_mem_set hq with hmem | heq
      · exact hInv q hmem
      · subst heq
        by_cases hidx : idx < ps.length
        · have hgd : ps.getD idx default = ps.get ⟨idx, hidx⟩ := by
            simp [List.getD_eq_getElem?_getD, List.getElem?_eq_getElem hidx]
          have hview := viewEq_canUse now m (ps.getD idx default) (ps.getD idx default)
            (viewEq_refl now _)
          rw [hview.2.2.2.2]
          rw [hgd]
          exact hInv _ (List.get_mem ps idx hidx)
        · have hview := viewEq_canUse now m (ps.getD idx default) (ps.getD idx default)
            (viewEq_refl now _)
          rw [hview.2.2.2.2]
          -- out-of-range cursor: `getD` yields the default placeholder,
          -- whose use list is empty
          simp [List.getD_eq_getElem?_getD, List.getElem?_eq_none (Nat.le_of_not_lt hidx),
            windowCount, default, Inhabited.default]

theorem markFailed_recentUses (p : ProxyUsage) : p.markFailed.recentUses = p.recentUses := rfl

theorem recordPerimeterXBlock_recentUses (p : ProxyUsage) (now : Int) :
    (p.recordPerimeterXBlock now).recentUses = p.recentUses := by
  simp only [ProxyUsage.recordPerimeterXBlock]
  split_ifs <;> rfl

theorem applyOp_maxUses (mgr : DecodoProxyManager) (op : PoolOp) :
    (applyOp mgr op).maxUsesPerMinute = mgr.maxUsesPerMinute := by
  cases op with
  | acquire now =>
    simp only [applyOp, DecodoProxyManager.getNextProxy]
    by_cases hcap : mgr.maxWorkers ≤ mgr.activeWorkers
    · simp only [if_pos hcap]
    · simp only [if_neg hcap]
      rcases hg : (scanLoop mgr.maxUsesPerMinute now mgr.proxies.length mgr.proxies
          mgr.currentIndex []).granted with _ | g <;> simp only [hg]
  | release pid s b now => rfl

theorem applyOp_windowInv (mgr : DecodoProxyManager) (op : PoolOp)
    (hop : noSuccessRelease [op] = true)
    (hInv : ∀ q ∈ mgr.proxies, windowCount op.time q.recentUses ≤ mgr.maxUsesPerMinute) :
    ∀ q ∈ (applyOp mgr op).proxies,
      windowCount op.time q.recentUses ≤ mgr.maxUsesPerMinute := by
  cases op with
  | acquire now =>
    simp only [applyOp, DecodoProxyManager.getNextProxy]
    by_cases hcap : mgr.maxWorkers ≤ mgr.activeWorkers
    · simp only [if_pos hcap]
      exact hInv
    · simp only [if_neg hcap]
      rcases hg : (scanLoop mgr.maxUsesPerMinute now mgr.proxies.length mgr.proxies
          mgr.currentIndex []).granted with _ | g <;> simp only [hg] <;>
        exact scanLoop_windowInv mgr.maxUsesPerMinute now mgr.proxies.length mgr.proxies
          mgr.currentIndex [] hInv
  | release pid s b now =>
    simp only [applyOp, DecodoProxyManager.releaseProxy]
    intro q hq
    rcases mem_updateFirst _ pid mgr.proxies q hq with hmem | ⟨x, hx, hfx⟩
    · exact hInv q hmem
    · have hb : (b || !s) = true := by simpa [noSuccessRelease] using hop
      subst hfx
      by_cases hpx : b = true
      · rw [if_pos hpx, markFailed_recentUses, recordPerimeterXBlock_recentUses]
        exact hInv x hx
      · have hs : s = false := by
          rcases Bool.or_eq_true_iff.mp hb with h | h
          · exact absurd h hpx
          · simpa using h
        rw [if_neg hpx, hs]
        simp only [Bool.false_eq_true, if_false, markFailed_recentUses]
        exact hInv x hx

/-- Claim C1 (amended): along any sequence of acquires and non-success
releases with nondecreasing timestamps, every proxy's use count inside the
trailing 60 s window stays at or below `maxUsesPerMinute`: a grant requires
the pruned count to be strictly below the limit and adds one timestamp.
The bound does not survive success releases — `recordSuccess` appends a use
timestamp unconditionally (see the counterexample). -/
theorem rateLimit_window_invariant (ops : List PoolOp) :
    ∀ (mgr : DecodoProxyManager) (t0 : Int),
      (∀ q ∈ mgr.proxies, windowCount t0 q.recentUses ≤ mgr.maxUsesPerMinute) →
      timesSortedFrom t0 ops = true →
      noSuccessRelease ops = true →
      ∀ q ∈ (applyOps mgr ops).proxies,
        windowCount (lastTime t0 ops) q.recentUses ≤ mgr.maxUsesPerMinute := by
  induction ops with
  | nil => intro mgr t0 hInv _ _; exact hInv
  | cons op rest ih =>
    intro mgr t0 hInv hmono hnos
    simp only [timesSortedFrom, Bool.and_eq_true, decide_eq_true_eq] at hmono
    obtain ⟨ht, hmono2⟩ := hmono
    simp only [noSuccessRelease, List.all_cons, Bool.and_eq_true] at hnos
    obtain ⟨hnos1, hnos2⟩ := hnos
    have hop1 : noSuccessRelease [op] = true := by
      simp only [noSuccessRelease, List.all_cons, List.all_nil, Bool.and_true]
      exact hnos1
    have hInv2 : ∀ q ∈ mgr.proxies,
        windowCount op.time q.recentUses ≤ mgr.maxUsesPerMinute :=
      fun q hq => le_trans (windowCount_mono t0 op.time ht q.recentUses) (hInv q hq)
    have hstep := applyOp_windowInv mgr op hop1 hInv2
    have hmu := applyOp_maxUses mgr op
    have hrec := ih (applyOp mgr op) op.time (by rw [hmu]; exact hstep) hmono2
      (by simpa [noSuccessRelease] using hnos2)
    rw [hmu] at hrec
    simpa only [applyOps, List.foldl_cons, lastTime] using hrec

/-- Witness for the amended C1 on a concrete trace without success
releases. -/
theorem rateLimit_window_invariant_witness :
    windowCount (lastTime 0 opsW1)
      ((applyOps mgrW1 opsW1).proxies.headD default).recentUses ≤ mgrW1.maxUsesPerMinute :=
  rateLimit_window_invariant opsW1 mgrW1 0 (by decide) (by decide) (by decide) _ (by decide)

/-! Scheduler concurrency bound (claim C3). -/

/-- Counterexample to C3 as stated: 4 routes, concurrency limit 2.  The
first route (started synchronously) completes while the second initial
route is still pending its staggered timer; the refill loop immediately
starts two queued routes (`inProgress` back at the limit), and then the
pending stagger timer fires: three routes are in flight, exceeding the
limit — pending-delayed initial routes are invisible to `inProgress`. -/
theorem scheduler_cap_counterexample :
    (initSched 4 2).limit = 2 ∧
    (runSched (initSched 4 2)
      [SchedStep.complete JobOutcome.cachedHit, SchedStep.fire]).inFlight = 3 := by
  decide

theorem applyStep_schedInv (c p0 : Nat) (s : SchedState) (step : SchedStep)
    (h : schedInv c p0 s) : schedInv c p0 (applyStep s step) := by
  obtain ⟨hl, hsum, hp⟩ := h
  cases step with
  | fire =>
    dsimp only [applyStep]
    split_ifs with h1
    · exact ⟨hl, by dsimp only; omega, by dsimp only; omega⟩
    · exact ⟨hl, hsum, hp⟩
  | complete o =>
    dsimp only [applyStep, refillCount]
    split_ifs with h1 h2
    · refine ⟨hl, ?_, hp⟩
      dsimp only at h2 ⊢
      rw [hl] at h2 ⊢
      rw [Nat.min_def]
      split_ifs <;> omega
    · exact ⟨hl, by dsimp only; omega, hp⟩
    · exact ⟨hl, hsum, hp⟩
  | completeNoRefill o =>
    dsimp only [applyStep]
    split_ifs with h1
    · exact ⟨hl, by dsimp only; omega, hp⟩
    · exact ⟨hl, hsum, hp⟩
  | refill =>
    dsimp only [applyStep, refillCount]
    split_ifs with h1
    · refine ⟨hl, ?_, hp⟩
      dsimp only at h1 ⊢
      rw [hl] at h1 ⊢
      rw [Nat.min_def]
      split_ifs <;> omega
    · exact ⟨hl, hsum, hp⟩

/-- Claim C3 (amended): at every instant, in-flight plus
pending-staggered-start is at most `C + (min(C,N) − 1)`; in particular the
in-flight count is at most `2C − 1`.  The claimed bound `inFlight ≤ C`
holds only once no staggered initial start is pending and can be exceeded
while stagger timers fire after completion-triggered refills (see the
counterexample). -/
theorem runSched_schedInv (c p0 : Nat) (steps : List SchedStep) :
    ∀ s : SchedState, schedInv c p0 s → schedInv c p0 (runSched s steps) := by
  induction steps with
  | nil => intro s h; exact h
  | cons step rest ih =>
    intro s h
    simpa only [runSched, List.foldl_cons] using
      ih (applyStep s step) (applyStep_schedInv c p0 s step h)

/-- Claim C3 (amended): at every instant, in-flight plus
pending-staggered-start is at most `C + (min(C,N) - 1)`; in particular the
in-flight count is at most `2C - 1`.  The claimed bound `inFlight ≤ C`
can be exceeded while stagger timers fire after completion-triggered
refills (see the counterexample), because routes pending their staggered
delay are invisible to `inProgress`. -/
theorem scheduler_inflight_bound (steps : List SchedStep) (n c : Nat) (hc : 1 ≤ c) :
    (runSched (initSched n c) steps).inFlight + (runSched (initSched n c) steps).pending ≤
      c + (min c n - 1) ∧
    (runSched (initSched n c) steps).pending ≤ min c n - 1 ∧
    (runSched (initSched n c) steps).inFlight ≤ 2 * c - 1 := by
  have hinit : schedInv c (min c n - 1) (initSched n c) := by
    refine ⟨rfl, ?_, Nat.le_refl _⟩
    simp only [initSched]
    omega
  obtain ⟨_, hsum, hp⟩ := runSched_schedInv c (min c n - 1) steps (initSched n c) hinit
  refine ⟨hsum, hp, by omega⟩

/-- Witness for the amended C3 at the counterexample trace itself: the
overshoot stays within the proved bound. -/
theorem scheduler_inflight_bound_witness :
    (runSched (initSched 4 2)
        [SchedStep.complete JobOutcome.cachedHit, SchedStep.fire]).inFlight +
      (runSched (initSched 4 2)
        [SchedStep.complete JobOutcome.cachedHit, SchedStep.fire]).pending ≤
      2 + (min 2 4 - 1) ∧
    (runSched (initSched 4 2)
      [SchedStep.complete JobOutcome.cachedHit, SchedStep.fire]).pending ≤ min 2 4 - 1 ∧
    (runSched (initSched 4 2)
      [SchedStep.complete JobOutcome.cachedHit, SchedStep.fire]).inFlight ≤ 2 * 2 - 1 :=
  scheduler_inflight_bound [SchedStep.complete JobOutcome.cachedHit, SchedStep.fire] 4 2
    (by decide)

/-! Scheduler resolution and batch statistics (claims C4 and C8). -/

/-- Exhibit for the C4 code bug: with 2 routes and concurrency 2, route 1
starts synchronously and route 2 is pending its staggered timer.  If
route 1 completes first (e.g. a fast cache hit, well under the >= 1 s
stagger), the main loop's exit condition `queued = 0 ∧ inFlight = 0` holds
and `Promise.all` sees an empty set: `processRoutesConcurrently` resolves
(logging that all routes were processed) while route 2 has not even
started — only 1 of the 2 jobs has reached a terminal state. -/
theorem scheduler_early_resolution :
    (runSched (initSched 2 2) [SchedStep.complete JobOutcome.cachedHit]).resolvable = true ∧
    (runSched (initSched 2 2) [SchedStep.complete JobOutcome.cachedHit]).pending = 1 ∧
    (runSched (initSched 2 2) [SchedStep.complete JobOutcome.cachedHit]).done = 1 ∧
    (runSched (initSched 2 2) [SchedStep.complete JobOutcome.cachedHit]).stats.total = 2 := by
  decide

theorem applyOutcome_statsInv (st : BatchStats) (o : JobOutcome)
    (h : st.processed = st.cached + st.scraped + st.failed) :
    (st.applyOutcome o).processed =
      (st.applyOutcome o).cached + (st.applyOutcome o).scraped + (st.applyOutcome o).failed ∧
    (st.applyOutcome o).processed = st.processed + 1 ∧
    (st.applyOutcome o).total = st.total := by
  cases o <;> exact ⟨by dsimp only [BatchStats.applyOutcome]; omega,
    by dsimp only [BatchStats.applyOutcome], by dsimp only [BatchStats.applyOutcome]⟩

theorem applyStep_statsInv (n : Nat) (s : SchedState) (step : SchedStep)
    (h : statsInv n s) : statsInv n (applyStep s step) := by
  obtain ⟨h1, h2, h3⟩ := h
  cases step with
  | fire =>
    dsimp only [applyStep]
    split_ifs
    · exact ⟨h1, h2, h3⟩
    · exact ⟨h1, h2, h3⟩
  | complete o =>
    dsimp only [applyStep, refillCount]
    obtain ⟨g1, g2, g3⟩ := applyOutcome_statsInv s.stats o h1
    split_ifs with hin hk
    · exact ⟨g1, by dsimp only; omega, by dsimp only; rw [g3]; exact h3⟩
    · exact ⟨g1, by dsimp only; omega, by dsimp only; rw [g3]; exact h3⟩
    · exact ⟨h1, h2, h3⟩
  | completeNoRefill o =>
    dsimp only [applyStep]
    obtain ⟨g1, g2, g3⟩ := applyOutcome_statsInv s.stats o h1
    split_ifs with hin
    · exact ⟨g1, by dsimp only; omega, by dsimp only; rw [g3]; exact h3⟩
    · exact ⟨h1, h2, h3⟩
  | refill =>
    dsimp only [applyStep, refillCount]
    split_ifs
    · exact ⟨h1, h2, h3⟩
    · exact ⟨h1, h2, h3⟩

theorem runSched_statsInv (n : Nat) (steps : List SchedStep) :
    ∀ s : SchedState, statsInv n s → statsInv n (runSched s steps) := by
  induction steps with
  | nil => intro s h; exact h
  | cons step rest ih =>
    intro s h
    simpa only [runSched, List.foldl_cons] using
      ih (applyStep s step) (applyStep_statsInv n s step h)

/-- Claim C8: the batch counters always satisfy
`processed = cached + scraped + failed`, each bucket incremented exactly
once per job at its terminal transition (`processed` counts the settled
jobs).  The claimed `processed = total` at batch completion fails: at the
concrete schedule of the C4 bug the batch resolves with
`processed = cached + scraped + failed = 1` but `total = 2`. -/
theorem batchStats_conservation :
    (∀ (n c : Nat) (steps : List SchedStep),
      (runSched (initSched n c) steps).stats.processed =
        (runSched (initSched n c) steps).stats.cached +
        (runSched (initSched n c) steps).stats.scraped +
        (runSched (initSched n c) steps).stats.failed ∧
      (runSched (initSched n c) steps).stats.processed =
        (runSched (initSched n c) steps).done ∧
      (runSched (initSched n c) steps).stats.total = n) ∧
    ((runSched (initSched 2 2) [SchedStep.complete JobOutcome.scrapeFail]).resolvable = true ∧
      (runSched (initSched 2 2) [SchedStep.complete JobOutcome.scrapeFail]).stats.processed = 1 ∧
      (runSched (initSched 2 2) [SchedStep.complete JobOutcome.scrapeFail]).stats.failed = 1 ∧
      (runSched (initSched 2 2) [SchedStep.complete JobOutcome.scrapeFail]).stats.total = 2) := by
  refine ⟨fun n c steps => ?_, by decide⟩
  exact runSched_statsInv n steps (initSched n c) ⟨rfl, rfl, rfl⟩

/-! The pool-exhaustion retry loop (claim C7). -/

/-- Counterexample to C7's different-proxy part: after a PerimeterX block
on `decodo-1` at t=0 (first block, so no cooldown) the second iteration
grants `decodo-1` again although it is already in the tried set — the
tried set never constrains `getNextProxy`'s selection, it only feeds the
loop bound and the logs. -/
theorem decodoRetry_counterexample :
    (scrapeFlightsWithDecodo 0 schedW7 stW7).iters.map IterRecord.granted =
      [some "decodo-1", some "decodo-1"] ∧
    (scrapeFlightsWithDecodo 0 schedW7 stW7).iters.map IterRecord.triedBefore = [0, 1] ∧
    (scrapeFlightsWithDecodo 0 schedW7 stW7).finalState.tried = ["decodo-1"] := by
  decide

/-- Claim C7 (amended): every executed iteration of the
`scrapeFlightsWithDecodo` retry loop starts within the 120 s wall-clock
ceiling, and an iteration beyond the plain `MAX_RETRIES` count is admitted
only while the previous attempt ended in a PerimeterX block and the tried
set holds fewer than the hardcoded `totalProxies = 10` ids (not the pool's
actual size).  The proxy used after a block is whatever the rotation
grants next and may repeat an already-tried proxy (see the
counterexample). -/
theorem decodoRetry_iteration_guards (startTime : Int) :
    ∀ (sched : List IterSchedule) (st : DecodoState),
      ∀ r ∈ (scrapeFlightsWithDecodo startTime sched st).iters,
        r.time - startTime ≤ maxWaitTime ∧
        (MAX_RETRIES < r.attemptNo →
          r.lastErrorWasPx = true ∧ r.triedBefore < totalProxies) := by
  intro sched
  induction sched with
  | nil =>
    intro st r hr
    simp only [scrapeFlightsWithDecodo] at hr
    cases hr
  | cons it rest ih =>
    intro st r hr
    simp only [scrapeFlightsWithDecodo] at hr
    split at hr
    · -- loop condition failed: break, no iteration
      dsimp only at hr
      cases hr
    · next hguard =>
      have hguard2 : st.attempt < MAX_RETRIES ∨
          (st.lastError = some ScrapeOutcome.pxBlock ∧ st.tried.length < totalProxies) :=
        not_not.mp hguard
      split at hr
      · -- wall-clock ceiling exceeded: break, no iteration
        dsimp only at hr
        cases hr
      · next htime =>
        have hpast : MAX_RETRIES < st.attempt + 1 →
            st.lastError = some ScrapeOutcome.pxBlock ∧ st.tried.length < totalProxies := by
          intro hlt
          rcases hguard2 with h | h
          · exact absurd h (by omega)
          · exact h
        have hrec : ∀ g : Option String,
            (⟨it.t, st.attempt + 1, decide (st.lastError = some ScrapeOutcome.pxBlock),
              st.tried.length, g⟩ : IterRecord).time - startTime ≤ maxWaitTime ∧
            (MAX_RETRIES < (⟨it.t, st.attempt + 1,
                decide (st.lastError = some ScrapeOutcome.pxBlock),
                st.tried.length, g⟩ : IterRecord).attemptNo →
              (⟨it.t, st.attempt + 1, decide (st.lastError = some ScrapeOutcome.pxBlock),
                st.tried.length, g⟩ : IterRecord).lastErrorWasPx = true ∧
              (⟨it.t, st.attempt + 1, decide (st.lastError = some ScrapeOutcome.pxBlock),
                st.tried.length, g⟩ : IterRecord).triedBefore < totalProxies) := by
          intro g
          refine ⟨le_of_not_lt htime, fun hlt => ?_⟩
          obtain ⟨hpx, htr⟩ := hpast hlt
          exact ⟨by simp [hpx], htr⟩
        split at hr
        · -- no proxy granted: the wait branch
          split at hr
          · -- wait failed: break after recording this iteration
            dsimp only at hr
            rw [List.mem_singleton] at hr
            subst hr
            exact hrec _
          · -- wait succeeded (grant discarded): continue
            dsimp only at hr
            rcases List.mem_cons.mp hr with heq | hr2
            · subst heq
              exact hrec _
            · exact ih _ r hr2
        · -- a proxy was granted
          split at hr
          · -- success: return
            dsimp only at hr
            rw [List.mem_singleton] at hr
            subst hr
            exact hrec _
          · -- PerimeterX block: continue
            dsimp only at hr
            rcases List.mem_cons.mp hr with heq | hr2
            · subst heq
              exact hrec _
            · exact ih _ r hr2
          · -- other error: break at the plain retry bound, else continue
            split at hr
            · dsimp only at hr
              rw [List.mem_singleton] at hr
              subst hr
              exact hrec _
            · dsimp only at hr
              rcases List.mem_cons.mp hr with heq | hr2
              · subst heq
                exact hrec _
              · exact ih _ r hr2

/-- Witness for the amended C7 at the counterexample schedule: the first
recorded iteration satisfies both guard facts. -/
theorem decodoRetry_iteration_guards_witness :
    ((scrapeFlightsWithDecodo 0 schedW7 stW7).iters.headD default).time - 0 ≤ maxWaitTime ∧
    (MAX_RETRIES < ((scrapeFlightsWithDecodo 0 schedW7 stW7).iters.headD default).attemptNo →
      ((scrapeFlightsWithDecodo 0 schedW7 stW7).iters.headD default).lastErrorWasPx = true ∧
      ((scrapeFlightsWithDecodo 0 schedW7 stW7).iters.headD default).triedBefore <
        totalProxies) :=
  decodoRetry_iteration_guards 0 schedW7 stW7 _ (by decide)
